import Mathlib

/-!
Verification development for the CMS Medicare Advantage enrollment
processing pipeline (`scripts/process_enrollment.py`).

The Python source is shallowly embedded: table cells read from CSV are
`Option String` (`none` models a pandas `NaN`), coerced enrollment counts
are `Int`, and Python dicts are association lists with the relevant
dict semantics (duplicate literal keys: last write wins; assignment to an
existing key: value replaced in place).  Real-number arithmetic in the
delta engine is modelled over `Rat`.
-/

set_option autoImplicit false

namespace MADash

/-! ## Python string primitives

The embedding uses its own character-level implementations of the Python
string operations the pipeline relies on (`.lower()`, `.upper()`,
`.strip()`, `.replace(...)`, substring `in`, lexicographic `<`), restricted
to their ASCII behaviour, which is all the pipeline's data exercises. -/

/-- ASCII fragment of Python `str.lower` on one character. -/
def lowerChar (c : Char) : Char :=
  if 65 ≤ c.toNat ∧ c.toNat ≤ 90 then Char.ofNat (c.toNat + 32) else c

/-- ASCII fragment of Python `str.upper` on one character. -/
def upperChar (c : Char) : Char :=
  if 97 ≤ c.toNat ∧ c.toNat ≤ 122 then Char.ofNat (c.toNat - 32) else c

/-- Python `s.lower()`. -/
def pyLower (s : String) : String := String.mk (s.toList.map lowerChar)

/-- Python `s.replace(" ", "_")`: a one-character pattern, so a map. -/
def replSpace (s : String) : String :=
  String.mk (s.toList.map (fun c => if c = ' ' then '_' else c))

def isWS (c : Char) : Bool :=
  c = ' ' || c = '\t' || c = '\n' || c = '\r'

/-- Python `s.strip()` (ASCII whitespace). -/
def pyStrip (s : String) : String :=
  String.mk (((s.toList.dropWhile isWS).reverse.dropWhile isWS).reverse)

/-- Lexicographic comparison of character lists by code point, the order
Python uses on strings (and pandas when sorting group keys). -/
def charListLe : List Char → List Char → Bool
  | [], _ => true
  | _ :: _, [] => false
  | a :: as, b :: bs =>
    a.toNat < b.toNat || (a.toNat = b.toNat && charListLe as bs)

/-- Python `a <= b` on strings. -/
def strLe (a b : String) : Bool := charListLe a.toList b.toList

/-- Substring test on character lists: does `nd` occur contiguously in `hay`?
Models Python's `nd in hay` for strings. -/
def hasPfx : List Char → List Char → Bool
  | _, [] => true
  | [], _ :: _ => false
  | h :: hs, n :: ns => h = n && hasPfx hs ns

def containsSub (hay nd : List Char) : Bool :=
  match hay with
  | [] => nd.isEmpty
  | _ :: rest => hasPfx hay nd || containsSub rest nd

/-- Python `nd in hay` (substring containment). -/
def strContains (hay nd : String) : Bool :=
  containsSub hay.toList nd.toList

/-- Python `s[:5]` (`contract_id[:5]`). -/
def strTake5 (s : String) : String :=
  String.mk (s.toList.take 5)

/-- Python dict built from a literal list of pairs, then `d.get(k)`:
later bindings of the same key overwrite earlier ones (last write wins). -/
def pyDictGet {β : Type} (ps : List (String × β)) (k : String) : Option β :=
  ps.foldl (fun acc p => if p.1 = k then some p.2 else acc) none

/-- First-match association lookup, the read side of an insertion-ordered
dict whose keys are unique. -/
def lookupA {β : Type} (ps : List (String × β)) (k : String) : Option β :=
  (ps.find? (fun p => p.1 = k)).map (fun p => p.2)

/-- `l[-1]` as an option, written via `reverse` to keep proofs elementary. -/
def lastVal? {α : Type} (l : List α) : Option α :=
  l.reverse.head?

/-! ## Classifier: `identify_plan_type` (process_enrollment.py lines 122-158) -/

def dsnp_keywords : List String :=
  ["dsnp", "dual", "d-snp", "dual eligible", "dual-eligible"]

/-- Embedding of `identify_plan_type(contract_id, plan_name, org_type)`. -/
def identify_plan_type (contract_id plan_name org_type : String) : String :=
  if contract_id = "" then "Other"
  else
    let pfx := upperChar (contract_id.toList.headD ' ')
    let plan_name_lower := pyLower plan_name
    let org_type_lower := pyLower org_type
    if dsnp_keywords.any (fun kw =>
        strContains plan_name_lower kw || strContains org_type_lower kw) then
      "DSNP"
    else if pfx = 'H' then
      (if strContains plan_name_lower "ppo" then "PPO" else "HMO")
    else if pfx = 'R' then "PPO"
    else "Other"

/-- The classification algorithm as the specification states it:
empty/missing contract number short-circuits to "Other"; then the
dual-eligible keyword check over plan name and organization type; then the
contract prefix dispatch. -/
def classifySpec (contract_number plan_name org_type : String) : String :=
  if contract_number = "" then "Other"
  else if dsnp_keywords.any (fun kw =>
      strContains (pyLower plan_name) kw || strContains (pyLower org_type) kw) then
    "DSNP"
  else if upperChar (contract_number.toList.headD ' ') = 'H' then
    (if strContains (pyLower plan_name) "ppo" then "PPO" else "HMO")
  else if upperChar (contract_number.toList.headD ' ') = 'R' then "PPO"
  else "Other"

/-! ## Static parent-organization map (process_enrollment.py lines 24-119)

The Python source is a single dict literal; several 5-character prefixes
appear under more than one organization, and Python dict literals resolve
such duplicates by keeping the value of the last occurrence.  The list
below preserves the source order of the entries. -/

def PARENT_ORG_MAPPING : List (String × String) := [
  ("H0028", "UnitedHealth Group"),
  ("H0543", "UnitedHealth Group"),
  ("H0754", "UnitedHealth Group"),
  ("H1045", "UnitedHealth Group"),
  ("H1685", "UnitedHealth Group"),
  ("H2001", "UnitedHealth Group"),
  ("H2168", "UnitedHealth Group"),
  ("H2406", "UnitedHealth Group"),
  ("H3749", "UnitedHealth Group"),
  ("H4091", "UnitedHealth Group"),
  ("H5253", "UnitedHealth Group"),
  ("H5521", "UnitedHealth Group"),
  ("H6501", "UnitedHealth Group"),
  ("H7657", "UnitedHealth Group"),
  ("R5826", "UnitedHealth Group"),
  ("H0112", "CVS Health (Aetna)"),
  ("H0318", "CVS Health (Aetna)"),
  ("H0485", "CVS Health (Aetna)"),
  ("H0533", "CVS Health (Aetna)"),
  ("H1609", "CVS Health (Aetna)"),
  ("H2478", "CVS Health (Aetna)"),
  ("H3152", "CVS Health (Aetna)"),
  ("H3312", "CVS Health (Aetna)"),
  ("H3597", "CVS Health (Aetna)"),
  ("H4002", "CVS Health (Aetna)"),
  ("H4448", "CVS Health (Aetna)"),
  ("H5521", "CVS Health (Aetna)"),
  ("H9851", "CVS Health (Aetna)"),
  ("H0028", "Humana"),
  ("H1036", "Humana"),
  ("H1406", "Humana"),
  ("H1951", "Humana"),
  ("H2649", "Humana"),
  ("H4141", "Humana"),
  ("H4461", "Humana"),
  ("H5216", "Humana"),
  ("H5619", "Humana"),
  ("H6622", "Humana"),
  ("H7495", "Humana"),
  ("H8145", "Humana"),
  ("R5826", "Humana"),
  ("H0146", "Elevance Health (Anthem)"),
  ("H0354", "Elevance Health (Anthem)"),
  ("H0540", "Elevance Health (Anthem)"),
  ("H2006", "Elevance Health (Anthem)"),
  ("H3655", "Elevance Health (Anthem)"),
  ("H3905", "Elevance Health (Anthem)"),
  ("H4624", "Elevance Health (Anthem)"),
  ("H5853", "Elevance Health (Anthem)"),
  ("H9019", "Elevance Health (Anthem)"),
  ("H0169", "Centene"),
  ("H1485", "Centene"),
  ("H2712", "Centene"),
  ("H3447", "Centene"),
  ("H4007", "Centene"),
  ("H5427", "Centene"),
  ("H6832", "Centene"),
  ("H0524", "Kaiser Permanente"),
  ("H0630", "Kaiser Permanente"),
  ("H2172", "Kaiser Permanente"),
  ("H9003", "Kaiser Permanente"),
  ("H0107", "Cigna"),
  ("H0354", "Cigna"),
  ("H4513", "Cigna"),
  ("H5410", "Cigna"),
  ("H6373", "Cigna"),
  ("H0169", "Molina Healthcare"),
  ("H0420", "Molina Healthcare"),
  ("H5823", "Molina Healthcare"),
  ("H9498", "Molina Healthcare"),
  ("H0404", "BCBS"),
  ("H0520", "BCBS"),
  ("H1350", "BCBS"),
  ("H2819", "BCBS"),
  ("H3949", "BCBS"),
  ("H5008", "BCBS"),
  ("H6502", "BCBS")]

/-- Keyword table of `get_parent_org`, in source enumeration order. -/
def org_keywords : List (String × List String) := [
  ("UnitedHealth Group", ["united", "uhc", "optum", "pacificare"]),
  ("CVS Health (Aetna)", ["aetna", "cvs"]),
  ("Humana", ["humana"]),
  ("Elevance Health (Anthem)", ["anthem", "wellpoint", "elevance"]),
  ("Centene", ["centene", "wellcare", "health net"]),
  ("Kaiser Permanente", ["kaiser"]),
  ("Cigna", ["cigna"]),
  ("Molina Healthcare", ["molina"]),
  ("BCBS", ["blue cross", "blue shield", "bcbs", "anthem"])]

/-- Embedding of `get_parent_org(contract_id, org_name)`
(process_enrollment.py lines 161-192). -/
def get_parent_org (contract_id org_name : String) : String :=
  if contract_id = "" then "Other"
  else
    let contract_base :=
      if 5 ≤ contract_id.length then strTake5 contract_id else contract_id
    match pyDictGet PARENT_ORG_MAPPING contract_base with
    | some org => org
    | none =>
      let org_name_lower := pyLower org_name
      match org_keywords.find? (fun p =>
          p.2.any (fun kw => strContains org_name_lower kw)) with
      | some p => p.1
      | none => "Other"

/-- Embedding of the nested `get_org(contract)` of `process_csv`
(process_enrollment.py lines 323-330): `none` models a `NaN` contract cell,
`lookup` models the `contract_to_org` dict loaded from the contract-info
table. -/
def get_org (lookup : List (String × String)) (contract : Option String) : String :=
  match contract with
  | none => "Other"
  | some c =>
    match pyDictGet lookup c with
    | some org => org
    | none => get_parent_org c ""

/-- The parent-organization resolution chain as the specification states it
for tables lacking an organization column: missing/empty contract number
resolves to "Other"; an exact full-contract-number match in the supplied
OrgLookup table wins next; then the static prefix map on the first five
characters; then the keyword scan over the record's organization name (which
is absent in this path, hence the empty string); else "Other". -/
def resolveParentOrgSpec (lookup : List (String × String))
    (contract : Option String) : String :=
  match contract with
  | none => "Other"
  | some c =>
    if c = "" then "Other"
    else
      match pyDictGet lookup c with
      | some org => org
      | none =>
        match pyDictGet PARENT_ORG_MAPPING (strTake5 c) with
        | some org => org
        | none =>
          match org_keywords.find? (fun p =>
              p.2.any (fun kw => strContains (pyLower "") kw)) with
          | some p => p.1
          | none => "Other"

/-! ## Schema normalization: `process_csv` (lines 277-316) -/

/-- Synonym table of `process_csv` (lines 281-291), in source order. -/
def column_mappings : List (String × List String) := [
  ("contract_number", ["contract_number", "contractid", "contract_id", "h_number"]),
  ("plan_id", ["plan_id", "planid", "plan_number"]),
  ("state", ["state", "state_code", "bene_state"]),
  ("county", ["county", "county_name", "bene_county"]),
  ("fips", ["fips", "fips_code", "county_fips", "ssa_code", "fips_state_county_code"]),
  ("enrollment", ["enrollment", "total_enrollment", "enrolled", "member_count", "enrollees"]),
  ("organization", ["organization_name", "org_name", "organization", "plan_org_name", "parent_organization"]),
  ("plan_name", ["plan_name", "plan_benefit_package_name", "pbp_name"]),
  ("org_type", ["organization_type", "org_type", "special_needs_plan_type"])]

/-- `df.columns.str.strip().str.lower().str.replace(" ", "_")` on one name. -/
def normalizeColName (c : String) : String := replSpace (pyLower (pyStrip c))

/-- The `renamed` dict of lines 294-299: for each canonical field, the first
synonym present among the columns maps to the canonical name. -/
def renamePairs (cols : List String) : List (String × String) :=
  column_mappings.filterMap (fun p =>
    (p.2.find? (fun v => cols.contains v)).map (fun v => (v, p.1)))

/-- `df.rename(columns=renamed)` applied to the column names. -/
def renameCols (cols : List String) : List String :=
  cols.map (fun c =>
    match pyDictGet (renamePairs cols) c with
    | some std => std
    | none => c)

def requiredCols : List String := ["contract_number", "state", "enrollment"]

structure SchemaError where
  missing : List String
  available : List String
deriving DecidableEq

/-- Embedding of the schema-check portion of `process_csv` (lines 277-308):
normalize the raw header names, apply the synonym mapping, and fail when a
required canonical field has no matching column.  The Python failure point
prints the available (post-rename) columns and raises with the missing
list; the error value here carries both diagnostics. -/
def checkSchema (rawCols : List String) : Except SchemaError (List String) :=
  let cols := rawCols.map normalizeColName
  let renamed := renameCols cols
  let missing := requiredCols.filter (fun f => !(renamed.contains f))
  if missing = [] then .ok renamed else .error ⟨missing, renamed⟩

/-! ## Enrollment coercion (lines 310-313) -/

/-- `df["enrollment"].str.replace(",", "")` on one cell. -/
def stripCommas (s : String) : String :=
  String.mk (s.toList.filter (fun c => !(c = ',')))

def isDigitB (c : Char) : Bool := 48 ≤ c.toNat && c.toNat ≤ 57

def allDigits (cs : List Char) : Bool := !cs.isEmpty && cs.all isDigitB

def natOfDigits (cs : List Char) : Nat :=
  cs.foldl (fun a c => a * 10 + (c.toNat - 48)) 0

/-- Integer fragment of `pd.to_numeric(errors="coerce")` on a string cell:
an optionally signed run of digits parses to its value, anything else is
not a number (`NaN`). -/
def parseIntChars : List Char → Option Int
  | [] => none
  | c :: rest =>
    if c = '-' then
      (if allDigits rest then some (-(natOfDigits rest : Int)) else none)
    else if c = '+' then
      (if allDigits rest then some (natOfDigits rest : Int) else none)
    else if allDigits (c :: rest) then some (natOfDigits (c :: rest) : Int)
    else none

/-- Embedding of the enrollment coercion (lines 310-313): missing cells and
unparseable strings become 0 (`fillna(0)` after `errors="coerce"`),
thousands separators are stripped first. -/
def coerce_enrollment (cell : Option String) : Int :=
  match cell with
  | none => 0
  | some s => (parseIntChars (stripCommas s).toList).getD 0

/-! ## The normalized table handed to `aggregate_enrollment`

A cell is `Option String`; `none` models a pandas `NaN`.  The `has*` flags
model column presence, which the source tests with `... in df.columns`;
the three required columns always exist after normalization.  Enrollment
has already been coerced to an integer.  In the `df.apply` lambdas the
source would raise a `TypeError` on a `NaN` contract, plan-name or
org-type cell (e.g. `nan[0]`); `cellStr`'s `""` default is exercised only
outside the domain the theorems below assume (those cells non-null
whenever their column exists). -/

structure Row where
  contract : Option String
  state : Option String
  county : Option String
  fips : Option String
  planName : Option String
  orgType : Option String
  organization : Option String
  enrollment : Int
deriving DecidableEq

structure Table where
  hasCounty : Bool
  hasFips : Bool
  hasOrganization : Bool
  hasPlanName : Bool
  hasOrgType : Bool
  rows : List Row
deriving DecidableEq

def cellStr (o : Option String) : String := o.getD ""

/-- Derived `plan_type` column (lines 342-349): `r.get` returns `""` only
when the column is absent. -/
def Table.planTypeOf (t : Table) (r : Row) : String :=
  identify_plan_type (cellStr r.contract)
    (if t.hasPlanName then cellStr r.planName else "")
    (if t.hasOrgType then cellStr r.orgType else "")

/-- Derived `parent_org` column (lines 351-361): the organization column is
used directly when present, else the static resolution with no org name. -/
def Table.parentOrgOf (t : Table) (r : Row) : Option String :=
  if t.hasOrganization then r.organization
  else some (get_parent_org (cellStr r.contract) "")

/-- `df["fips"] = ""` when the column is absent (lines 364-366). -/
def Table.fipsOf (t : Table) (r : Row) : Option String :=
  if t.hasFips then r.fips else some ""

/-- County-level grouping key (line 383): `(state, county)` when a county
column exists, else `state` alone (modelled with `""` as second
component); pandas `groupby` drops rows whose key contains a `NaN`. -/
def Table.rowKey (t : Table) (r : Row) : Option (String × String) :=
  if t.hasCounty then
    match r.state, r.county with
    | some s, some c => some (s, c)
    | _, _ => none
  else
    match r.state with
    | some s => some (s, "")
    | none => none

def strLt (a b : String) : Bool := strLe a b && !(a = b)

/-- Python tuple comparison on `(state, county)` keys, the order in which
pandas iterates sorted groups. -/
def keyLe (a b : String × String) : Bool :=
  strLt a.1 b.1 || (a.1 = b.1 && strLe a.2 b.2)

/-- The distinct group keys in pandas iteration order (`groupby` sorts the
keys ascending). -/
def Table.groupKeys (t : Table) : List (String × String) :=
  List.insertionSort (fun a b => keyLe a b = true)
    ((t.rows.filterMap t.rowKey).dedup)

/-- The rows of one group, in table order. -/
def Table.groupRows (t : Table) (k : String × String) : List Row :=
  t.rows.filter (fun r => decide (t.rowKey r = some k))

/-- The synthesized `county_key` (lines 386-392). -/
def Table.countyKeyStr (t : Table) (k : String × String) : String :=
  if t.hasCounty then pyLower (replSpace (k.1 ++ "_" ++ k.2))
  else k.1 ++ "_unknown"

/-- The per-group output key (lines 394-395): `dropna().unique()[0]` is the
group's first non-null fips value (`unique` keeps first occurrences), used
when present and truthy, else the synthesized county key. -/
def Table.groupFips (t : Table) (k : String × String) : String :=
  match (t.groupRows k).filterMap t.fipsOf with
  | [] => t.countyKeyStr k
  | v :: _ => if v = "" then t.countyKeyStr k else v

def sumE (rows : List Row) : Int := (rows.map Row.enrollment).sum

/-- `rows.groupby(key)["enrollment"].sum().to_dict()`: distinct non-null
keys in sorted order, each with the summed enrollment of its rows. -/
def dimSum (rows : List Row) (key : Row → Option String) : List (String × Int) :=
  (List.insertionSort (fun a b => strLe a b = true) ((rows.filterMap key).dedup)).map
    (fun k => (k, sumE (rows.filter (fun r => decide (key r = some k)))))

structure CountyData where
  state : String
  county : String
  fips : String
  total : Int
  by_org : List (String × Int)
  by_plan_type : List (String × Int)
  contracts : List (String × Int)
deriving DecidableEq

/-- The `county_data` dict of one group (lines 397-410). -/
def Table.countyDataOf (t : Table) (k : String × String) : CountyData :=
  let g := t.groupRows k
  { state := k.1
    county := if t.hasCounty then k.2 else "Unknown"
    fips := t.groupFips k
    total := sumE g
    by_org := dimSum g t.parentOrgOf
    by_plan_type := dimSum g (fun r => some (t.planTypeOf r))
    contracts := dimSum g Row.contract }

/-- Python dict assignment `d[k] = v`: replace in place when the key
exists, else append. -/
def insertReplace {β : Type} (ps : List (String × β)) (k : String) (v : β) :
    List (String × β) :=
  if ps.any (fun p => decide (p.1 = k)) then
    ps.map (fun p => if p.1 = k then (k, v) else p)
  else ps ++ [(k, v)]

/-- `result["counties"]` (lines 385-412): one dict assignment per group,
keyed by the group's output key — a later group with the same key
overwrites an earlier one. -/
def Table.countiesDict (t : Table) : List (String × CountyData) :=
  t.groupKeys.foldl
    (fun acc k => insertReplace acc (t.groupFips k) (t.countyDataOf k)) []

/-! ## Per-contract summary (lines 427-447) -/

def maxCount (l : List String) : Nat :=
  (l.map (fun v => l.count v)).foldr max 0

/-- `Series.mode()`: the values attaining the maximal multiplicity, sorted
ascending (pandas sorts the mode result). -/
def seriesMode (l : List String) : List String :=
  List.insertionSort (fun a b => strLe a b = true)
    (l.dedup.filter (fun v => decide (l.count v = maxCount l)))

/-- GroupBy `first`: the first non-null value of the column. -/
def firstSome (l : List (Option String)) : Option String :=
  (l.filterMap id).head?

structure ContractData where
  enrollment : Int
  parent_org : Option String
  organization : Option String
  plan_type : String
deriving DecidableEq

def Table.contractKeys (t : Table) : List String :=
  List.insertionSort (fun a b => strLe a b = true)
    ((t.rows.filterMap Row.contract).dedup)

def Table.contractGroup (t : Table) (c : String) : List Row :=
  t.rows.filter (fun r => decide (r.contract = some c))

/-- One row of `df.groupby("contract_number").agg(...)` (lines 427-447):
summed enrollment, `first` (first non-null) parent org, `x.mode().iloc[0]`
with "Unknown" for an empty mode list, and the organization column when
present (else `v.get("organization", v["parent_org"])` falls back). -/
def Table.contractDataOf (t : Table) (c : String) : ContractData :=
  let g := t.contractGroup c
  let po := firstSome (g.map t.parentOrgOf)
  { enrollment := sumE g
    parent_org := po
    organization := if t.hasOrganization then firstSome (g.map Row.organization) else po
    plan_type := (seriesMode (g.map t.planTypeOf)).headD "Unknown" }

def Table.contractsDict (t : Table) : List (String × ContractData) :=
  t.contractKeys.map (fun c => (c, t.contractDataOf c))

structure Snapshot where
  record_count : Nat
  total_enrollment : Int
  counties : List (String × CountyData)
  by_org : List (String × Int)
  by_plan_type : List (String × Int)
  by_state : List (String × Int)
  contracts : List (String × ContractData)
deriving DecidableEq

/-- Embedding of `aggregate_enrollment` (lines 337-449). -/
def aggregate_enrollment (t : Table) : Snapshot :=
  { record_count := t.rows.length
    total_enrollment := sumE t.rows
    counties := t.countiesDict
    by_org := dimSum t.rows t.parentOrgOf
    by_plan_type := dimSum t.rows (fun r => some (t.planTypeOf r))
    by_state := dimSum t.rows (fun r => r.state)
    contracts := t.contractsDict }

/-! ## Delta engine: `calculate_changes` (lines 452-515)

Snapshots enter the diff through the fields `calculate_changes` reads:
grand total, county totals (`current_county["total"]`, with
`december["counties"].get(fips, {"total": 0})` defaulting an absent
baseline county), and the `by_org` / `by_state` dicts.  Real arithmetic is
modelled exactly over `Rat`. -/

/-- `round(x, 2)`. -/
def round2 (q : Rat) : Rat := ((round (q * 100) : Int) : Rat) / 100

/-- `round((change / baseline) * 100, 2) if baseline > 0 else 0`. -/
def pctOf (change base : Int) : Rat :=
  if 0 < base then round2 (((change : Rat) / (base : Rat)) * 100) else 0

structure ChangeEntry where
  current : Int
  december : Int
  change : Int
  change_pct : Rat
deriving DecidableEq

structure SnapView where
  total_enrollment : Int
  counties : List (String × Int)
  by_org : List (String × Int)
  by_state : List (String × Int)
deriving DecidableEq

structure ChangeSet where
  total_current : Int
  total_december : Int
  total_change : Int
  total_change_pct : Rat
  counties : List (String × ChangeEntry)
  by_org : List (String × ChangeEntry)
  by_state : List (String × ChangeEntry)
deriving DecidableEq

/-- One dimension of the diff loops (lines 473-513): iterate the keys of
the current side; a key absent from the baseline contributes 0. -/
def diffDim (cur dec : List (String × Int)) : List (String × ChangeEntry) :=
  cur.map (fun p =>
    let d := (lookupA dec p.1).getD 0
    (p.1, ⟨p.2, d, p.2 - d, pctOf (p.2 - d) d⟩))

/-- Embedding of `calculate_changes` (lines 452-515). -/
def calculate_changes (current december : SnapView) : ChangeSet :=
  { total_current := current.total_enrollment
    total_december := december.total_enrollment
    total_change := current.total_enrollment - december.total_enrollment
    total_change_pct :=
      pctOf (current.total_enrollment - december.total_enrollment)
        december.total_enrollment
    counties := diffDim current.counties december.counties
    by_org := diffDim current.by_org december.by_org
    by_state := diffDim current.by_state december.by_state }

/-! ## Specification-side notions used in theorem statements -/

/-- The county output key as the specification states it: the first
non-EMPTY fips value observed in the group when one exists, else the
synthesized key. -/
def specCountyKey (t : Table) (k : String × String) : String :=
  match (((t.groupRows k).filterMap t.fipsOf).filter (fun v => !(v = ""))).head? with
  | some v => v
  | none => t.countyKeyStr k

/-- Most-frequent value with ties broken by the first-encountered value,
the tie-break rule the specification states for the per-contract plan
type. -/
def firstEncounteredMode (l : List String) : Option String :=
  (l.filter (fun v => decide (l.count v = maxCount l))).head?

def sumVals (l : List (String × Int)) : Int := (l.map (fun p => p.2)).sum

def sumCountyTotals (l : List (String × CountyData)) : Int :=
  (l.map (fun p => p.2.total)).sum

/-- Whether a row's (optional) grouping key lands in the key set `ks`;
rows with a null key are the ones pandas `groupby` drops. -/
def keyInB {α κ : Type} [DecidableEq κ] (key : α → Option κ) (ks : List κ)
    (r : α) : Bool :=
  match key r with
  | some k => decide (k ∈ ks)
  | none => false

/-- A normalized table whose two `(state, county)` groups carry the same
fips value "X", and whose single contract has one PPO and one HMO record. -/
def exampleCollisionTable : Table :=
  { hasCounty := true, hasFips := true, hasOrganization := false,
    hasPlanName := true, hasOrgType := false,
    rows := [
      { contract := some "H1234", state := some "CA", county := some "A",
        fips := some "X", planName := some "alpha ppo", orgType := none,
        organization := none, enrollment := 10 },
      { contract := some "H1234", state := some "CA", county := some "B",
        fips := some "X", planName := some "beta", orgType := none,
        organization := none, enrollment := 20 } ] }

/-- The specification's end-to-end example table: contracts H0028
(CA / Los Angeles / 150) and H9999 (NY / Kings / masked, coerced to 0). -/
def exampleOkTable : Table :=
  { hasCounty := true, hasFips := false, hasOrganization := false,
    hasPlanName := false, hasOrgType := false,
    rows := [
      { contract := some "H0028", state := some "CA",
        county := some "Los Angeles", fips := none, planName := none,
        orgType := none, organization := none, enrollment := 150 },
      { contract := some "H9999", state := some "NY", county := some "Kings",
        fips := none, planName := none, orgType := none,
        organization := none, enrollment := 0 } ] }

/-! ## Helper lemmas -/

theorem contains_iff_mem (l : List String) (a : String) :
    l.contains a = true ↔ a ∈ l := by
  show List.elem a l = true ↔ a ∈ l
  exact List.elem_iff

theorem foldl_dict_const {β : Type} (ps : List (String × β)) (k : String)
    (h : ∀ p ∈ ps, p.1 ≠ k) (init : Option β) :
    ps.foldl (fun acc p => if p.1 = k then some p.2 else acc) init = init := by
  induction ps generalizing init with
  | nil => rfl
  | cons p ps ih =>
    rw [List.foldl_cons, if_neg (h p (List.mem_cons_self p ps))]
    exact ih (fun q hq => h q (List.mem_cons_of_mem p hq)) init

theorem pyDictGet_none {β : Type} (ps : List (String × β)) (k : String)
    (h : ∀ p ∈ ps, p.1 ≠ k) : pyDictGet ps k = none :=
  foldl_dict_const ps k h none

theorem lastVal?_cons {α : Type} (v : α) (vs : List α) :
    lastVal? (v :: vs) = (lastVal? vs).or (some v) := by
  simp only [lastVal?, List.reverse_cons, List.head?_append, List.head?_cons]

theorem pyDictGet_eq_last {β : Type} (ps : List (String × β)) (k : String) :
    pyDictGet ps k
      = lastVal? ((ps.filter (fun p => decide (p.1 = k))).map (fun p => p.2)) := by
  have aux : ∀ init, ps.foldl (fun acc p => if p.1 = k then some p.2 else acc) init
      = (lastVal? ((ps.filter (fun p => decide (p.1 = k))).map (fun p => p.2))).or init := by
    induction ps with
    | nil => intro init; rfl
    | cons p ps ih =>
      intro init
      by_cases hp : p.1 = k
      · rw [List.foldl_cons, if_pos hp, ih (some p.2)]
        have hf : (p :: ps).filter (fun q => decide (q.1 = k))
            = p :: ps.filter (fun q => decide (q.1 = k)) := by
          simp [List.filter_cons, hp]
        rw [hf, List.map_cons, lastVal?_cons]
        cases lastVal? ((ps.filter (fun q => decide (q.1 = k))).map (fun q => q.2)) <;> rfl
      · have hf : (p :: ps).filter (fun q => decide (q.1 = k))
            = ps.filter (fun q => decide (q.1 = k)) := by
          simp [List.filter_cons, hp]
        rw [List.foldl_cons, if_neg hp, ih init, hf]
  have h0 := aux none
  rw [Option.or_none] at h0
  exact h0

theorem strTake5_of_short {c : String} (h : ¬ 5 ≤ c.length) : strTake5 c = c := by
  have hl : c.toList.length ≤ 5 := Nat.le_of_lt (Nat.lt_of_not_le h)
  unfold strTake5
  rw [List.take_of_length_le hl]
  rfl

theorem parseIntChars_nonneg (cs : List Char) (h : ∀ c ∈ cs, c ≠ '-') :
    0 ≤ (parseIntChars cs).getD 0 := by
  cases cs with
  | nil => exact le_refl 0
  | cons c rest =>
    simp only [parseIntChars]
    rw [if_neg (h c (List.mem_cons_self c rest))]
    by_cases hp : c = '+'
    · rw [if_pos hp]
      by_cases hd : allDigits rest = true
      · rw [if_pos hd]; exact Int.natCast_nonneg _
      · rw [if_neg hd]; exact le_refl 0
    · rw [if_neg hp]
      by_cases hd : allDigits (c :: rest) = true
      · rw [if_pos hd]; exact Int.natCast_nonneg _
      · rw [if_neg hd]; exact le_refl 0

theorem coerce_nonneg_no_minus (s : String) (h : ∀ c ∈ s.toList, c ≠ '-') :
    0 ≤ coerce_enrollment (some s) := by
  have hsub : ∀ c ∈ (stripCommas s).toList, c ≠ '-' := by
    intro c hc
    have hc' : c ∈ s.toList.filter (fun ch => !(ch = ',')) := hc
    exact h c (List.mem_filter.mp hc').1
  exact parseIntChars_nonneg _ hsub

theorem charListLe_refl : ∀ as, charListLe as as = true
  | [] => rfl
  | a :: as => by
    simp only [charListLe, Bool.or_eq_true, Bool.and_eq_true, decide_eq_true_eq]
    exact Or.inr ⟨by trivial, charListLe_refl as⟩

theorem charListLe_trans : ∀ as bs cs, charListLe as bs = true →
    charListLe bs cs = true → charListLe as cs = true
  | [], _, _, _, _ => rfl
  | _ :: _, [], _, h1, _ => by simp [charListLe] at h1
  | _ :: _, _ :: _, [], _, h2 => by simp [charListLe] at h2
  | a :: as, b :: bs, c :: cs, h1, h2 => by
    simp only [charListLe, Bool.or_eq_true, Bool.and_eq_true,
      decide_eq_true_eq] at h1 h2 ⊢
    rcases h1 with h1 | ⟨he1, hr1⟩ <;> rcases h2 with h2 | ⟨he2, hr2⟩
    · exact Or.inl (Nat.lt_trans h1 h2)
    · exact Or.inl (he2 ▸ h1)
    · exact Or.inl (he1 ▸ h2)
    · exact Or.inr ⟨he1.trans he2, charListLe_trans as bs cs hr1 hr2⟩

theorem charListLe_total : ∀ as bs,
    charListLe as bs = true ∨ charListLe bs as = true
  | [], _ => Or.inl rfl
  | _ :: _, [] => Or.inr rfl
  | a :: as, b :: bs => by
    simp only [charListLe, Bool.or_eq_true, Bool.and_eq_true, decide_eq_true_eq]
    rcases Nat.lt_trichotomy a.toNat b.toNat with h | h | h
    · exact Or.inl (Or.inl h)
    · rcases charListLe_total as bs with hr | hr
      · exact Or.inl (Or.inr ⟨h, hr⟩)
      · exact Or.inr (Or.inr ⟨h.symm, hr⟩)
    · exact Or.inr (Or.inl h)

theorem strLe_refl (a : String) : strLe a a = true := charListLe_refl a.toList

theorem strLe_trans {a b c : String} (h1 : strLe a b = true)
    (h2 : strLe b c = true) : strLe a c = true :=
  charListLe_trans a.toList b.toList c.toList h1 h2

theorem strLe_total (a b : String) : strLe a b = true ∨ strLe b a = true :=
  charListLe_total a.toList b.toList

theorem le_foldr_max (xs : List Nat) : ∀ x ∈ xs, x ≤ xs.foldr max 0 := by
  induction xs with
  | nil => intro x hx; exact absurd hx (List.not_mem_nil x)
  | cons y ys ih =>
    intro x hx
    rcases List.mem_cons.mp hx with h | h
    · exact h ▸ Nat.le_max_left y (ys.foldr max 0)
    · exact Nat.le_trans (ih x h) (Nat.le_max_right y (ys.foldr max 0))

theorem foldr_max_mem (xs : List Nat) (h : xs ≠ []) :
    xs.foldr max 0 ∈ xs ∨ xs.foldr max 0 = 0 := by
  induction xs with
  | nil => exact absurd rfl h
  | cons y ys ih =>
    rcases Nat.le_total (ys.foldr max 0) y with hle | hle
    · left
      rw [List.foldr_cons, Nat.max_eq_left hle]
      exact List.mem_cons_self y ys
    · rw [List.foldr_cons, Nat.max_eq_right hle]
      rcases eq_or_ne ys [] with hys | hys
      · subst hys
        right
        rfl
      · rcases ih hys with hm | hz
        · exact Or.inl (List.mem_cons_of_mem y hm)
        · exact Or.inr hz

theorem maxCount_attained (l : List String) (h : l ≠ []) :
    ∃ v ∈ l, l.count v = maxCount l := by
  have hmap : (l.map (fun v => l.count v)) ≠ [] := by
    simpa using h
  rcases foldr_max_mem _ hmap with hm | hz
  · rcases List.mem_map.mp hm with ⟨v, hv, hcnt⟩
    exact ⟨v, hv, hcnt⟩
  · obtain ⟨v, hv⟩ : ∃ v, v ∈ l := by
      cases l with
      | nil => exact absurd rfl h
      | cons a l => exact ⟨a, List.mem_cons_self a l⟩
    have hpos : 0 < l.count v := List.count_pos_iff.mpr hv
    have hle : l.count v ≤ maxCount l :=
      le_foldr_max _ _ (List.mem_map.mpr ⟨v, hv, rfl⟩)
    rw [maxCount, hz] at hle
    omega
  -- `maxCount` unfolds to the same foldr, so the first branch closes directly

theorem firstSome_eq_head_join (l : List (Option String))
    (h : ∀ x ∈ l, x.isSome = true) : firstSome l = l.head?.join := by
  cases l with
  | nil => rfl
  | cons o l =>
    rcases Option.isSome_iff_exists.mp (h o (List.mem_cons_self o l)) with ⟨v, hv⟩
    subst hv
    rfl

theorem lookupA_keyMap {β : Type} (ks : List String) (f : String → β) (k : String) :
    lookupA (ks.map (fun c => (c, f c))) k
      = if k ∈ ks then some (f k) else none := by
  induction ks with
  | nil => rfl
  | cons c ks ih =>
    by_cases hck : c = k
    · subst hck
      simp [lookupA, List.find?_cons]
    · have hne : k ∈ c :: ks ↔ k ∈ ks := by
        simp [List.mem_cons, Ne.symm hck, eq_comm]
      rw [List.map_cons]
      show lookupA ((c, f c) :: ks.map (fun c => (c, f c))) k = _
      have : lookupA ((c, f c) :: ks.map (fun c => (c, f c))) k
          = lookupA (ks.map (fun c => (c, f c))) k := by
        simp [lookupA, List.find?_cons, hck]
      rw [this, ih]
      by_cases hk : k ∈ ks
      · rw [if_pos hk, if_pos (hne.mpr hk)]
      · rw [if_neg hk, if_neg (fun hmem => hk (hne.mp hmem))]

/-! ## Claim theorems (part 1) -/

/-- C2: `identify_plan_type` returns "Other" immediately when the contract
number is empty (skipping the keyword checks); otherwise "DSNP" when the
plan name or organization type contains a dual-eligible keyword
case-insensitively; otherwise, when the upper-cased first character of the
contract number is `H`, "PPO" if the plan name contains "ppo"
case-insensitively and "HMO" otherwise; otherwise "PPO" when that first
character is `R`; otherwise "Other". -/
theorem identify_plan_type_correct (contract_number plan_name org_type : String) :
    identify_plan_type contract_number plan_name org_type
      = classifySpec contract_number plan_name org_type := rfl

/-- C3: when the table carries no organization column, the per-record
parent organization is resolved in priority order: "Other" for a
missing/empty contract number; else an exact full-contract-number match in
the supplied OrgLookup table (overriding the static prefix map); else the
static map entry for the first five characters; else the keyword scan over
the (absent, hence empty) organization name; else "Other".  The hypothesis
reflects that the contract-info loader never produces an empty-string
contract key (empty cells read as null and are skipped). -/
theorem get_org_priority (lookup : List (String × String)) (contract : Option String)
    (h : ∀ p ∈ lookup, p.1 ≠ "") :
    get_org lookup contract = resolveParentOrgSpec lookup contract := by
  cases contract with
  | none => rfl
  | some c =>
    by_cases hc : c = ""
    · subst hc
      have hL : get_org lookup (some "") = "Other" := by
        show (match pyDictGet lookup "" with
          | some org => org
          | none => get_parent_org "" "") = "Other"
        rw [pyDictGet_none lookup "" h]
        rfl
      rw [hL]
      rfl
    · simp only [get_org, resolveParentOrgSpec, if_neg hc]
      cases hl : pyDictGet lookup c with
      | some org => rfl
      | none =>
        simp only [get_parent_org, if_neg hc]
        by_cases h5 : 5 ≤ c.length
        · rw [if_pos h5]
        · rw [if_neg h5, strTake5_of_short h5]

theorem get_org_priority_witness :
    get_org [("H9999", "Zeta Health")] (some "H9999")
      = resolveParentOrgSpec [("H9999", "Zeta Health")] (some "H9999") :=
  get_org_priority [("H9999", "Zeta Health")] (some "H9999") (by decide)

/-- C8: Python dict literals resolve duplicate keys by keeping the last
binding, so every lookup through the static `PARENT_ORG_MAPPING` returns
the last-defined organization for its key; in particular the five
duplicated prefixes H0028, R5826, H0169, H0354 and H5521 resolve to their
later definitions, not the first-defined ones. -/
theorem parent_org_mapping_last_wins :
    (∀ k : String, pyDictGet PARENT_ORG_MAPPING k
        = lastVal? ((PARENT_ORG_MAPPING.filter (fun p => decide (p.1 = k))).map
            (fun p => p.2)))
    ∧ pyDictGet PARENT_ORG_MAPPING "H0028" = some "Humana"
    ∧ pyDictGet PARENT_ORG_MAPPING "R5826" = some "Humana"
    ∧ pyDictGet PARENT_ORG_MAPPING "H0169" = some "Molina Healthcare"
    ∧ pyDictGet PARENT_ORG_MAPPING "H0354" = some "Cigna"
    ∧ pyDictGet PARENT_ORG_MAPPING "H5521" = some "CVS Health (Aetna)"
    ∧ ((PARENT_ORG_MAPPING.filter (fun p => decide (p.1 = "H0028"))).map
        (fun p => p.2)).head? = some "UnitedHealth Group"
    ∧ get_parent_org "H0028" "" = "Humana"
    ∧ get_parent_org "H5521" "" = "CVS Health (Aetna)" :=
  ⟨fun k => pyDictGet_eq_last PARENT_ORG_MAPPING k, by decide, by decide, by decide,
    by decide, by decide, by decide, by decide, by decide⟩

/-- C4 (amended): the coercion maps "1,234" to 1234, the masking sentinel
"*" to 0, and missing or empty cells to 0; the result is an integer, and
it is non-negative for every cell that does not contain a minus sign (a
cell parsing as a negative number literal keeps its negative value). -/
theorem coerce_enrollment_spec :
    coerce_enrollment (some "1,234") = 1234
    ∧ coerce_enrollment (some "*") = 0
    ∧ coerce_enrollment none = 0
    ∧ coerce_enrollment (some "") = 0
    ∧ ∀ s : String, (∀ c ∈ s.toList, c ≠ '-') → 0 ≤ coerce_enrollment (some s) :=
  ⟨by decide, by decide, rfl, by decide, coerce_nonneg_no_minus⟩

theorem coerce_enrollment_spec_witness : 0 ≤ coerce_enrollment (some "12a") :=
  coerce_enrollment_spec.2.2.2.2 "12a" (by decide)

/-- C4 counterexample: the cell "-5" coerces to the negative integer -5,
so the coerced result is not non-negative for every input cell. -/
theorem coerce_enrollment_neg_counterexample :
    coerce_enrollment (some "-5") = -5 ∧ coerce_enrollment (some "-5") < 0 := by
  constructor <;> decide

/-- C7: normalization fails exactly when some required field
(contract_number, state, enrollment) has no matching column after synonym
mapping, and the failure diagnostics carry both the missing required
fields and the available (post-rename) columns. -/
theorem checkSchema_spec (rawCols : List String) :
    ((∃ e, checkSchema rawCols = .error e)
        ↔ ∃ f ∈ requiredCols, f ∉ renameCols (rawCols.map normalizeColName))
    ∧ ∀ e, checkSchema rawCols = .error e →
        e.missing = requiredCols.filter
            (fun f => !((renameCols (rawCols.map normalizeColName)).contains f))
        ∧ e.available = renameCols (rawCols.map normalizeColName)
        ∧ ∀ f, f ∈ e.missing ↔ (f ∈ requiredCols ∧ f ∉ e.available) := by
  simp only [checkSchema]
  by_cases hm : requiredCols.filter
      (fun f => !((renameCols (rawCols.map normalizeColName)).contains f)) = []
  · rw [if_pos hm]
    constructor
    · constructor
      · rintro ⟨e, he⟩
        exact Except.noConfusion he
      · rintro ⟨f, hf, hn⟩
        have := List.filter_eq_nil_iff.mp hm f hf
        simp only [Bool.not_eq_true', Bool.not_eq_false] at this
        exact (hn ((contains_iff_mem _ _).mp this)).elim
    · intro e he
      exact Except.noConfusion he
  · rw [if_neg hm]
    constructor
    · constructor
      · intro _
        obtain ⟨f, hf⟩ := List.exists_mem_of_ne_nil _ hm
        have hm2 := List.mem_filter.mp hf
        refine ⟨f, hm2.1, fun hmem => ?_⟩
        have := hm2.2
        simp only [Bool.not_eq_true'] at this
        rw [(contains_iff_mem _ _).mpr hmem] at this
        exact Bool.noConfusion this
      · intro _
        exact ⟨_, rfl⟩
    · intro e he
      injection he with he2
      subst he2
      refine ⟨rfl, rfl, fun f => ?_⟩
      constructor
      · intro hf
        have hm2 := List.mem_filter.mp hf
        refine ⟨hm2.1, fun hmem => ?_⟩
        have := hm2.2
        simp only [Bool.not_eq_true'] at this
        rw [(contains_iff_mem _ _).mpr hmem] at this
        exact Bool.noConfusion this
      · rintro ⟨hf, hnot⟩
        refine List.mem_filter.mpr ⟨hf, ?_⟩
        simp only [Bool.not_eq_true']
        cases hcon : (renameCols (rawCols.map normalizeColName)).contains f
        · rfl
        · exact absurd ((contains_iff_mem _ _).mp hcon) hnot

theorem checkSchema_spec_witness :
    ∃ f ∈ requiredCols,
      f ∉ renameCols (["foo", "state", "enrollment"].map normalizeColName) :=
  (checkSchema_spec ["foo", "state", "enrollment"]).1.mp
    ⟨⟨["contract_number"], ["foo", "state", "enrollment"]⟩, by rfl⟩

/-- C5: for every pair of snapshots, the summary reports the grand totals,
their difference, and the guarded percentage; and for every key of each
current-side dimension the change set contains the entry whose baseline is
the baseline value (0 when the key is absent from the baseline), whose
change is current minus baseline, and whose percentage is
`round(change / baseline * 100, 2)` when the baseline is strictly positive
and exactly 0 otherwise — the function is total, so no division error,
infinity or NaN can arise. -/
theorem calculate_changes_spec (current december : SnapView) :
    (calculate_changes current december).total_current = current.total_enrollment
    ∧ (calculate_changes current december).total_december = december.total_enrollment
    ∧ (calculate_changes current december).total_change
        = current.total_enrollment - december.total_enrollment
    ∧ (calculate_changes current december).total_change_pct
        = (if 0 < december.total_enrollment then
            round2 ((((current.total_enrollment - december.total_enrollment : Int) : Rat)
              / (december.total_enrollment : Rat)) * 100)
          else 0)
    ∧ (∀ k c, (k, c) ∈ current.counties →
        (k, ({ current := c, december := (lookupA december.counties k).getD 0,
               change := c - (lookupA december.counties k).getD 0,
               change_pct := if 0 < (lookupA december.counties k).getD 0 then
                   round2 ((((c - (lookupA december.counties k).getD 0 : Int) : Rat)
                     / (((lookupA december.counties k).getD 0 : Int) : Rat)) * 100)
                 else 0 } : ChangeEntry))
          ∈ (calculate_changes current december).counties)
    ∧ (∀ k c, (k, c) ∈ current.by_org →
        (k, ({ current := c, december := (lookupA december.by_org k).getD 0,
               change := c - (lookupA december.by_org k).getD 0,
               change_pct := if 0 < (lookupA december.by_org k).getD 0 then
                   round2 ((((c - (lookupA december.by_org k).getD 0 : Int) : Rat)
                     / (((lookupA december.by_org k).getD 0 : Int) : Rat)) * 100)
                 else 0 } : ChangeEntry))
          ∈ (calculate_changes current december).by_org)
    ∧ (∀ k c, (k, c) ∈ current.by_state →
        (k, ({ current := c, december := (lookupA december.by_state k).getD 0,
               change := c - (lookupA december.by_state k).getD 0,
               change_pct := if 0 < (lookupA december.by_state k).getD 0 then
                   round2 ((((c - (lookupA december.by_state k).getD 0 : Int) : Rat)
                     / (((lookupA december.by_state k).getD 0 : Int) : Rat)) * 100)
                 else 0 } : ChangeEntry))
          ∈ (calculate_changes current december).by_state) := by
  refine ⟨rfl, rfl, rfl, rfl, ?_, ?_, ?_⟩ <;>
    exact fun k c hm => List.mem_map_of_mem _ hm

theorem calculate_changes_spec_witness :
    ("X", ({ current := 100, december := 0, change := 100, change_pct := 0 } : ChangeEntry))
      ∈ (calculate_changes ⟨100, [("X", 100)], [], []⟩ ⟨0, [("X", 0)], [], []⟩).counties :=
  (calculate_changes_spec ⟨100, [("X", 100)], [], []⟩ ⟨0, [("X", 0)], [], []⟩).2.2.2.2.1
    "X" 100 (by decide)

/-- C6 counterexample: contract H1234 carries one PPO record (encountered
first) and one HMO record; the claim's first-encountered tie-break predicts
PPO, but the code returns HMO — `Series.mode()` sorts the tied candidates
and `iloc[0]` takes the lexicographically smallest, not the first
encountered. -/
theorem contract_mode_counterexample :
    (lookupA (aggregate_enrollment exampleCollisionTable).contracts "H1234").map
        ContractData.plan_type = some "HMO"
    ∧ firstEncounteredMode
        ((exampleCollisionTable.contractGroup "H1234").map
          exampleCollisionTable.planTypeOf) = some "PPO"
    ∧ ("HMO" : String) ≠ "PPO" :=
  ⟨by decide, by decide, by decide⟩

/-- C6 (amended): for every classified table whose organization cells are
non-null where that column exists, the per-contract summary's plan_type is
a most frequent plan type of the contract's records and, among the tied
most frequent values, the lexicographically smallest (pandas sorts the
mode; ties are not broken by first encounter); parent_org is the first
value seen for the contract. -/
theorem contract_summary_rule (t : Table)
    (horg : t.hasOrganization = true → ∀ r ∈ t.rows, r.organization ≠ none)
    (c : String) (cd : ContractData)
    (hc : lookupA (aggregate_enrollment t).contracts c = some cd) :
    ((t.contractGroup c).map t.planTypeOf).count cd.plan_type
        = maxCount ((t.contractGroup c).map t.planTypeOf)
    ∧ (∀ v ∈ (t.contractGroup c).map t.planTypeOf,
        ((t.contractGroup c).map t.planTypeOf).count v
            = maxCount ((t.contractGroup c).map t.planTypeOf)
        → strLe cd.plan_type v = true)
    ∧ cd.parent_org = ((t.contractGroup c).map t.parentOrgOf).head?.join := by
  have hc2 : lookupA t.contractsDict c = some cd := hc
  rw [Table.contractsDict, lookupA_keyMap] at hc2
  by_cases hmem : c ∈ t.contractKeys
  swap
  · rw [if_neg hmem] at hc2
    exact absurd hc2 (by simp)
  rw [if_pos hmem] at hc2
  have hcd : cd = t.contractDataOf c := (Option.some_injective _ hc2).symm
  have hmem2 : c ∈ (t.rows.filterMap Row.contract).dedup :=
    (List.perm_insertionSort _ _).mem_iff.mp hmem
  obtain ⟨r0, hr0, hr0c⟩ := List.mem_filterMap.mp (List.mem_dedup.mp hmem2)
  have hg0 : r0 ∈ t.contractGroup c := by
    rw [Table.contractGroup, List.mem_filter]
    exact ⟨hr0, by simp [hr0c]⟩
  have hpts_ne : (t.contractGroup c).map t.planTypeOf ≠ [] := by
    intro hnil
    have hmm := List.mem_map_of_mem t.planTypeOf hg0
    rw [hnil] at hmm
    exact List.not_mem_nil _ hmm
  obtain ⟨v0, hv0, hv0c⟩ := maxCount_attained _ hpts_ne
  have hv0cand : v0 ∈ ((t.contractGroup c).map t.planTypeOf).dedup.filter
      (fun v => decide (((t.contractGroup c).map t.planTypeOf).count v
        = maxCount ((t.contractGroup c).map t.planTypeOf))) :=
    List.mem_filter.mpr ⟨List.mem_dedup.mpr hv0, by simp [hv0c]⟩
  have hperm : (seriesMode ((t.contractGroup c).map t.planTypeOf)).Perm
      (((t.contractGroup c).map t.planTypeOf).dedup.filter
        (fun v => decide (((t.contractGroup c).map t.planTypeOf).count v
          = maxCount ((t.contractGroup c).map t.planTypeOf)))) :=
    List.perm_insertionSort _ _
  have hsne : seriesMode ((t.contractGroup c).map t.planTypeOf) ≠ [] := by
    intro hnil
    rw [hnil] at hperm
    exact List.not_mem_nil v0 (hperm.mem_iff.mpr hv0cand)
  obtain ⟨h0, rest, hsplit⟩ : ∃ h0 rest,
      seriesMode ((t.contractGroup c).map t.planTypeOf) = h0 :: rest := by
    cases hs : seriesMode ((t.contractGroup c).map t.planTypeOf) with
    | nil => exact absurd hs hsne
    | cons a l => exact ⟨a, l, rfl⟩
  have hplan : cd.plan_type = h0 := by
    rw [hcd]
    show (seriesMode ((t.contractGroup c).map t.planTypeOf)).headD "Unknown" = h0
    rw [hsplit]
    rfl
  have hh0cand : h0 ∈ ((t.contractGroup c).map t.planTypeOf).dedup.filter
      (fun v => decide (((t.contractGroup c).map t.planTypeOf).count v
        = maxCount ((t.contractGroup c).map t.planTypeOf))) :=
    hperm.mem_iff.mp (hsplit ▸ List.mem_cons_self h0 rest)
  have hh0max : ((t.contractGroup c).map t.planTypeOf).count h0
      = maxCount ((t.contractGroup c).map t.planTypeOf) := by
    have := (List.mem_filter.mp hh0cand).2
    simpa using this
  have hsorted : List.Sorted (fun a b => strLe a b = true)
      (seriesMode ((t.contractGroup c).map t.planTypeOf)) := by
    haveI h1 : IsTotal String (fun a b => strLe a b = true) := ⟨strLe_total⟩
    haveI h2 : IsTrans String (fun a b => strLe a b = true) :=
      ⟨fun a b c hab hbc => strLe_trans hab hbc⟩
    exact List.sorted_insertionSort _ _
  refine ⟨by rw [hplan]; exact hh0max, ?_, ?_⟩
  · intro v hv hvmax
    have hvcand : v ∈ ((t.contractGroup c).map t.planTypeOf).dedup.filter
        (fun w => decide (((t.contractGroup c).map t.planTypeOf).count w
          = maxCount ((t.contractGroup c).map t.planTypeOf))) :=
      List.mem_filter.mpr ⟨List.mem_dedup.mpr hv, by simp [hvmax]⟩
    have hvsorted : v ∈ seriesMode ((t.contractGroup c).map t.planTypeOf) :=
      hperm.mem_iff.mpr hvcand
    rw [hsplit] at hvsorted
    rcases List.mem_cons.mp hvsorted with he | htail
    · rw [hplan, he]
      exact strLe_refl h0
    · rw [hplan]
      exact List.rel_of_sorted_cons (hsplit ▸ hsorted) v htail
  · rw [hcd]
    show firstSome ((t.contractGroup c).map t.parentOrgOf)
      = ((t.contractGroup c).map t.parentOrgOf).head?.join
    apply firstSome_eq_head_join
    intro x hx
    rcases List.mem_map.mp hx with ⟨r, hr, hrx⟩
    subst hrx
    rw [Table.parentOrgOf]
    by_cases horgb : t.hasOrganization = true
    · rw [if_pos horgb]
      have hrrows : r ∈ t.rows := (List.mem_filter.mp hr).1
      exact Option.isSome_iff_ne_none.mpr (horg horgb r hrrows)
    · rw [if_neg horgb]
      rfl

theorem contract_summary_rule_witness :
    ((exampleOkTable.contractGroup "H0028").map exampleOkTable.planTypeOf).count
        ((exampleOkTable.contractDataOf "H0028").plan_type)
      = maxCount ((exampleOkTable.contractGroup "H0028").map exampleOkTable.planTypeOf)
    ∧ (exampleOkTable.contractDataOf "H0028").parent_org
      = ((exampleOkTable.contractGroup "H0028").map exampleOkTable.parentOrgOf).head?.join :=
  ⟨(contract_summary_rule exampleOkTable (by decide) "H0028"
      (exampleOkTable.contractDataOf "H0028") (by decide)).1,
   (contract_summary_rule exampleOkTable (by decide) "H0028"
      (exampleOkTable.contractDataOf "H0028") (by decide)).2.2⟩

theorem filterMap_const_some {α β : Type} (l : List α) (f : α → Option β) (b : β)
    (h : ∀ a ∈ l, f a = some b) : l.filterMap f = l.map (fun _ => b) := by
  induction l with
  | nil => rfl
  | cons a l ih =>
    rw [List.filterMap_cons, h a (List.mem_cons_self a l), List.map_cons]
    rw [ih (fun x hx => h x (List.mem_cons_of_mem a hx))]

/-- C9: the key under which a county-level group appears in the counties
dict is the group's first observed non-empty fips value whenever one
exists, and otherwise the synthesized lower-cased, space-to-underscore
state_county slug (state_unknown when no county column exists).  The
hypothesis restricts fips cells to null-or-non-empty, which is what a CSV
read yields (empty cells arrive as null): the code actually tests the
first non-NULL value for truthiness, and the two rules coincide exactly on
this domain. -/
theorem county_key_spec (t : Table)
    (hf : t.hasFips = true → ∀ r ∈ t.rows, r.fips ≠ some "")
    (k : String × String) :
    t.groupFips k = specCountyKey t k := by
  rw [Table.groupFips, specCountyKey]
  cases hfb : t.hasFips with
  | false =>
    have hfo : ∀ r ∈ t.groupRows k, t.fipsOf r = some "" := by
      intro r _
      rw [Table.fipsOf, hfb]
      rfl
    rw [filterMap_const_some _ _ _ hfo]
    cases hg : t.groupRows k with
    | nil => rfl
    | cons r g =>
      have hfil : (("" :: g.map (fun _ => "")).filter (fun v => !(v = ""))) = [] := by
        apply List.filter_eq_nil_iff.mpr
        intro a ha
        rcases List.mem_cons.mp ha with h | h
        · subst h
          simp
        · rcases List.mem_map.mp h with ⟨_, _, hae⟩
          subst hae
          simp
      rw [List.map_cons, hfil]
      rfl
  | true =>
    have hall : ∀ v ∈ (t.groupRows k).filterMap t.fipsOf, ¬(v = "") := by
      intro v hv hveq
      obtain ⟨r, hr, hrv⟩ := List.mem_filterMap.mp hv
      have hfe : t.fipsOf r = r.fips := by
        rw [Table.fipsOf, hfb]
        rfl
      rw [hfe] at hrv
      subst hveq
      exact hf hfb r (List.mem_filter.mp hr).1 hrv
    have hfilter : ((t.groupRows k).filterMap t.fipsOf).filter (fun v => !(v = ""))
        = (t.groupRows k).filterMap t.fipsOf :=
      List.filter_eq_self.mpr (fun v hv => by simp [hall v hv])
    rw [hfilter]
    cases hl : (t.groupRows k).filterMap t.fipsOf with
    | nil => rfl
    | cons v vs =>
      have hvne : ¬(v = "") := hall v (hl ▸ List.mem_cons_self v vs)
      show (if v = "" then t.countyKeyStr k else v) = _
      rw [if_neg hvne]
      rfl

theorem county_key_spec_witness :
    exampleCollisionTable.groupFips ("CA", "A")
      = specCountyKey exampleCollisionTable ("CA", "A") :=
  county_key_spec exampleCollisionTable (by decide) ("CA", "A")

theorem sum_ite_single {κ : Type} [DecidableEq κ] (ks : List κ) (k0 : κ) (x : Int)
    (hnd : ks.Nodup) :
    (ks.map (fun k => if k0 = k then x else 0)).sum
      = if k0 ∈ ks then x else 0 := by
  induction ks with
  | nil => simp
  | cons k ks ih =>
    rw [List.map_cons, List.sum_cons, ih hnd.of_cons]
    by_cases hk : k0 = k
    · subst hk
      have hnotin : k0 ∉ ks := (List.nodup_cons.mp hnd).1
      rw [if_pos rfl, if_neg hnotin, if_pos (List.mem_cons_self k0 ks), add_zero]
    · rw [if_neg hk]
      have hiff : k0 ∈ k :: ks ↔ k0 ∈ ks := by
        simp [List.mem_cons, hk]
      by_cases hm : k0 ∈ ks
      · rw [if_pos hm, if_pos (hiff.mpr hm), zero_add]
      · rw [if_neg hm, if_neg (fun hc => hm (hiff.mp hc)), zero_add]

theorem sum_groups {α κ : Type} [DecidableEq κ] (key : α → Option κ) (e : α → Int)
    (ks : List κ) (hnd : ks.Nodup) (rows : List α) :
    (ks.map (fun k =>
        ((rows.filter (fun r => decide (key r = some k))).map e).sum)).sum
      = ((rows.filter (keyInB key ks)).map e).sum := by
  induction rows with
  | nil => simp
  | cons r rs ih =>
    have hmapeq : (ks.map (fun k =>
        (((r :: rs).filter (fun a => decide (key a = some k))).map e).sum))
        = ks.map (fun k => (if key r = some k then e r else 0)
          + ((rs.filter (fun a => decide (key a = some k))).map e).sum) := by
      apply List.map_congr_left
      intro k _
      rw [List.filter_cons]
      by_cases hk : key r = some k
      · rw [if_pos (by simpa using hk), List.map_cons, List.sum_cons, if_pos hk]
      · rw [if_neg (by simpa using hk), if_neg hk, zero_add]
    rw [hmapeq, List.sum_map_add, ih, List.filter_cons]
    cases hkr : key r with
    | none =>
      have hz : (ks.map (fun k => if (none : Option κ) = some k then e r else 0))
          = ks.map (fun _ => (0 : Int)) := by
        apply List.map_congr_left
        intro k _
        rw [if_neg (by simp)]
      have hkib : keyInB key ks r = false := by
        simp [keyInB, hkr]
      rw [hz, hkib, if_neg (by simp)]
      simp
    | some k0 =>
      have hite : (ks.map (fun k => if some k0 = some k then e r else 0))
          = ks.map (fun k => if k0 = k then e r else 0) := by
        apply List.map_congr_left
        intro k _
        by_cases h : k0 = k
        · rw [if_pos (by rw [h]), if_pos h]
        · rw [if_neg (by simp [h]), if_neg h]
      have hkib : keyInB key ks r = decide (k0 ∈ ks) := by
        simp [keyInB, hkr]
      rw [hite, sum_ite_single ks k0 (e r) hnd, hkib]
      by_cases hmem : k0 ∈ ks
      · rw [if_pos hmem, if_pos (by simp [hmem]), List.map_cons, List.sum_cons]
      · rw [if_neg hmem, if_neg (by simp [hmem]), zero_add]

theorem sumE_eq (rows : List Row) : sumE rows = (rows.map Row.enrollment).sum := rfl

theorem sumVals_dimSum (rows : List Row) (key : Row → Option String) :
    sumVals (dimSum rows key)
      = ((rows.filter (fun r => (key r).isSome)).map Row.enrollment).sum := by
  rw [sumVals, dimSum, List.map_map]
  have hstep : ((List.insertionSort (fun a b => strLe a b = true)
        ((rows.filterMap key).dedup)).map
      ((fun p : String × Int => p.2) ∘ (fun k =>
        (k, sumE (rows.filter (fun r => decide (key r = some k))))))).sum
      = ((List.insertionSort (fun a b => strLe a b = true)
        ((rows.filterMap key).dedup)).map (fun k =>
          ((rows.filter (fun r => decide (key r = some k))).map Row.enrollment).sum)).sum := rfl
  rw [hstep]
  have hperm := (List.perm_insertionSort (fun a b => strLe a b = true)
      ((rows.filterMap key).dedup)).map (fun k =>
        ((rows.filter (fun r => decide (key r = some k))).map Row.enrollment).sum)
  rw [hperm.sum_eq]
  rw [sum_groups key Row.enrollment _ (List.nodup_dedup _) rows]
  have hfe : rows.filter (keyInB key ((rows.filterMap key).dedup))
      = rows.filter (fun r => (key r).isSome) := by
    apply List.filter_congr
    intro r hr
    cases hkr : key r with
    | none => simp [keyInB, hkr]
    | some k0 =>
      have hmem : k0 ∈ (rows.filterMap key).dedup :=
        List.mem_dedup.mpr (List.mem_filterMap.mpr ⟨r, hr, hkr⟩)
      simp [keyInB, hkr, hmem]
  rw [hfe]

theorem countiesDict_as_pairs (t : Table) :
    t.countiesDict = (t.groupKeys.map
        (fun k => (t.groupFips k, t.countyDataOf k))).foldl
      (fun acc p => insertReplace acc p.1 p.2) [] := by
  rw [Table.countiesDict, List.foldl_map]

theorem foldl_insertReplace_nodup {β : Type} :
    ∀ (ps acc : List (String × β)),
    (ps.map Prod.fst).Nodup →
    (∀ p ∈ ps, ∀ q ∈ acc, ¬(q.1 = p.1)) →
    ps.foldl (fun a p => insertReplace a p.1 p.2) acc = acc ++ ps
  | [], acc, _, _ => by simp
  | p :: ps, acc, hnd, hdis => by
    rw [List.foldl_cons]
    have hnd2 : (p.1 :: ps.map Prod.fst).Nodup := by simpa using hnd
    have hins : insertReplace acc p.1 p.2 = acc ++ [p] := by
      rw [insertReplace]
      have hany : acc.any (fun q => decide (q.1 = p.1)) = false :=
        List.any_eq_false.mpr (fun q hq => by
          simpa using hdis p (List.mem_cons_self p ps) q hq)
      rw [if_neg (by simp [hany])]
    rw [hins, foldl_insertReplace_nodup ps (acc ++ [p]) hnd2.of_cons ?hdis2,
      List.append_assoc, List.singleton_append]
    case hdis2 =>
      intro p2 hp2 q hq
      rcases List.mem_append.mp hq with hqa | hqp
      · exact hdis p2 (List.mem_cons_of_mem p hp2) q hqa
      · have hqe : q = p := by simpa using hqp
        subst hqe
        intro he
        have : q.1 ∈ ps.map Prod.fst := he ▸ List.mem_map.mpr ⟨p2, hp2, rfl⟩
        exact (List.nodup_cons.mp hnd2).1 this

/-- C1 counterexample: two distinct county groups of the collision table
share the output key "X", so one county entry overwrites the other and the
county totals sum to 20 while the metadata total is 30. -/
theorem aggregate_totals_counterexample :
    (aggregate_enrollment exampleCollisionTable).total_enrollment = 30
    ∧ sumCountyTotals (aggregate_enrollment exampleCollisionTable).counties = 20
    ∧ sumCountyTotals (aggregate_enrollment exampleCollisionTable).counties
        ≠ (aggregate_enrollment exampleCollisionTable).total_enrollment :=
  ⟨by decide, by decide, by decide⟩

/-- C1 (amended): for every normalized table whose grouping cells are
non-null (state everywhere; county and organization where those columns
exist — pandas groupby silently drops null-keyed rows, which would break
the equalities), the by_state, by_org and by_plan_type sums all equal the
metadata total enrollment; and the county totals also sum to the metadata
total provided the per-group output keys are pairwise distinct (a
duplicated key makes one group's entry overwrite another's). -/
theorem aggregate_totals (t : Table)
    (hst : ∀ r ∈ t.rows, r.state ≠ none)
    (hco : t.hasCounty = true → ∀ r ∈ t.rows, r.county ≠ none)
    (horg : t.hasOrganization = true → ∀ r ∈ t.rows, r.organization ≠ none) :
    sumVals (aggregate_enrollment t).by_state
        = (aggregate_enrollment t).total_enrollment
    ∧ sumVals (aggregate_enrollment t).by_org
        = (aggregate_enrollment t).total_enrollment
    ∧ sumVals (aggregate_enrollment t).by_plan_type
        = (aggregate_enrollment t).total_enrollment
    ∧ ((t.groupKeys.map t.groupFips).Nodup →
        sumCountyTotals (aggregate_enrollment t).counties
          = (aggregate_enrollment t).total_enrollment) := by
  refine ⟨?_, ?_, ?_, ?_⟩
  · show sumVals (dimSum t.rows (fun r => r.state)) = sumE t.rows
    rw [sumVals_dimSum, sumE_eq]
    have hfe : t.rows.filter (fun r => (r.state).isSome) = t.rows := by
      apply List.filter_eq_self.mpr
      intro r hr
      exact Option.isSome_iff_ne_none.mpr (hst r hr)
    rw [hfe]
  · show sumVals (dimSum t.rows t.parentOrgOf) = sumE t.rows
    rw [sumVals_dimSum, sumE_eq]
    have hfe : t.rows.filter (fun r => (t.parentOrgOf r).isSome) = t.rows := by
      apply List.filter_eq_self.mpr
      intro r hr
      rw [Table.parentOrgOf]
      by_cases hb : t.hasOrganization = true
      · rw [if_pos hb]
        exact Option.isSome_iff_ne_none.mpr (horg hb r hr)
      · rw [if_neg hb]
        rfl
    rw [hfe]
  · show sumVals (dimSum t.rows (fun r => some (t.planTypeOf r))) = sumE t.rows
    rw [sumVals_dimSum, sumE_eq]
    have hfe : t.rows.filter (fun r => (some (t.planTypeOf r)).isSome) = t.rows := by
      apply List.filter_eq_self.mpr
      intro r _
      rfl
    rw [hfe]
  · intro hnodup
    have hkeys : ((t.groupKeys.map
        (fun k => (t.groupFips k, t.countyDataOf k))).map Prod.fst).Nodup := by
      rw [List.map_map]
      exact hnodup
    have hfold := foldl_insertReplace_nodup
      (t.groupKeys.map (fun k => (t.groupFips k, t.countyDataOf k))) [] hkeys
      (fun p _ q hq => absurd hq (List.not_mem_nil q))
    show sumCountyTotals t.countiesDict = sumE t.rows
    rw [countiesDict_as_pairs, hfold, List.nil_append, sumCountyTotals,
      List.map_map]
    have hmapeq : ((t.groupKeys.map (fun k =>
        ((fun p : String × CountyData => p.2.total) ∘
          (fun k => (t.groupFips k, t.countyDataOf k))) k)).sum
        = (t.groupKeys.map (fun k => sumE (t.groupRows k))).sum) := rfl
    rw [hmapeq, Table.groupKeys]
    have hperm := (List.perm_insertionSort (fun a b => keyLe a b = true)
        ((t.rows.filterMap t.rowKey).dedup)).map
      (fun k => sumE (t.groupRows k))
    rw [hperm.sum_eq]
    have hgs := sum_groups t.rowKey Row.enrollment
      ((t.rows.filterMap t.rowKey).dedup) (List.nodup_dedup _) t.rows
    have hconv : (t.rows.filterMap t.rowKey).dedup.map
        (fun k => sumE (t.groupRows k))
        = (t.rows.filterMap t.rowKey).dedup.map (fun k =>
          ((t.rows.filter (fun r => decide (t.rowKey r = some k))).map
            Row.enrollment).sum) := rfl
    rw [hconv, hgs]
    have hfe : t.rows.filter (keyInB t.rowKey ((t.rows.filterMap t.rowKey).dedup))
        = t.rows := by
      apply List.filter_eq_self.mpr
      intro r hr
      have hks : (t.rowKey r).isSome = true := by
        rw [Table.rowKey]
        by_cases hb : t.hasCounty = true
        · rw [if_pos hb]
          cases hs : r.state with
          | none => exact absurd hs (hst r hr)
          | some s =>
            cases hcy : r.county with
            | none => exact absurd hcy (hco hb r hr)
            | some cy => rfl
        · rw [if_neg hb]
          cases hs : r.state with
          | none => exact absurd hs (hst r hr)
          | some s => rfl
      rcases Option.isSome_iff_exists.mp hks with ⟨k0, hk0⟩
      have hmem : k0 ∈ (t.rows.filterMap t.rowKey).dedup :=
        List.mem_dedup.mpr (List.mem_filterMap.mpr ⟨r, hr, hk0⟩)
      simp [keyInB, hk0, hmem]
    rw [hfe, sumE_eq]

theorem aggregate_totals_witness :
    sumVals (aggregate_enrollment exampleOkTable).by_state
        = (aggregate_enrollment exampleOkTable).total_enrollment
    ∧ sumCountyTotals (aggregate_enrollment exampleOkTable).counties
        = (aggregate_enrollment exampleOkTable).total_enrollment :=
  ⟨(aggregate_totals exampleOkTable (by decide) (by decide) (by decide)).1,
   (aggregate_totals exampleOkTable (by decide) (by decide) (by decide)).2.2.2
     (by decide)⟩

theorem lookupA_insertReplace {β : Type} (ps : List (String × β)) (a k : String)
    (b : β) :
    lookupA (insertReplace ps a b) k
      = if k = a then some b else lookupA ps k := by
  rw [insertReplace]
  by_cases hany : ps.any (fun p => decide (p.1 = a)) = true
  · rw [if_pos hany]
    show (((ps.map (fun p => if p.1 = a then (a, b) else p)).find?
        (fun p => decide (p.1 = k))).map (fun p => p.2)) = _
    rw [List.find?_map]
    by_cases hka : k = a
    · subst hka
      have hpred : ((fun p : String × β => decide (p.1 = k)) ∘
          (fun p => if p.1 = k then (k, b) else p))
          = fun p => decide (p.1 = k) := by
        funext p
        by_cases hp : p.1 = k
        · simp [Function.comp, hp]
        · simp [Function.comp, hp]
      rw [hpred, if_pos rfl]
      cases hfind : ps.find? (fun p => decide (p.1 = k)) with
      | none =>
        obtain ⟨q, hq, hqk⟩ := List.any_eq_true.mp hany
        exact absurd hqk (List.find?_eq_none.mp hfind q hq)
      | some p =>
        have hp1 : p.1 = k := by simpa using List.find?_some hfind
        simp [hp1]
    · have hpred : ((fun p : String × β => decide (p.1 = k)) ∘
          (fun p => if p.1 = a then (a, b) else p))
          = fun p => decide (p.1 = k) := by
        funext p
        by_cases hp : p.1 = a
        · simp only [Function.comp, if_pos hp]
          rw [hp]
        · simp [Function.comp, hp]
      rw [hpred, if_neg hka]
      cases hfind : ps.find? (fun p => decide (p.1 = k)) with
      | none => simp [lookupA, hfind]
      | some p =>
        have hp1 : p.1 = k := by simpa using List.find?_some hfind
        have hpa : ¬(p.1 = a) := by
          rw [hp1]
          exact hka
        show (Option.map _ (Option.map _ (some p))) = _
        simp [lookupA, hfind, hpa]
  · rw [if_neg hany]
    show ((ps ++ [(a, b)]).find? (fun p => decide (p.1 = k))).map (fun p => p.2) = _
    rw [List.find?_append]
    by_cases hka : k = a
    · subst hka
      have hnone : ps.find? (fun p => decide (p.1 = k)) = none :=
        List.find?_eq_none.mpr (fun q hq => by
          have := List.any_eq_false.mp (Bool.not_eq_true _ ▸ hany) q hq
          simpa using this)
      rw [hnone, if_pos rfl]
      simp
    · have hsing : List.find? (fun p : String × β => decide (p.1 = k)) [(a, b)]
          = none := by
        rw [List.find?_singleton, if_neg (by simpa using fun he => hka he.symm)]
      rw [hsing, Option.or_none, if_neg hka]
      rfl

theorem lookupA_foldl_insertReplace {β : Type} :
    ∀ (entries acc : List (String × β)) (k : String),
    lookupA (entries.foldl (fun a p => insertReplace a p.1 p.2) acc) k
      = (lastVal? ((entries.filter (fun p => decide (p.1 = k))).map
          (fun p => p.2))).or (lookupA acc k)
  | [], acc, k => rfl
  | p :: ps, acc, k => by
    rw [List.foldl_cons, lookupA_foldl_insertReplace ps _ k]
    by_cases hp : p.1 = k
    · have hf : (p :: ps).filter (fun q => decide (q.1 = k))
          = p :: ps.filter (fun q => decide (q.1 = k)) := by
        simp [List.filter_cons, hp]
      rw [hf, List.map_cons, lastVal?_cons,
        lookupA_insertReplace acc p.1 k p.2, if_pos hp.symm]
      cases lastVal? ((ps.filter (fun q => decide (q.1 = k))).map (fun q => q.2)) <;>
        rfl
    · have hf : (p :: ps).filter (fun q => decide (q.1 = k))
          = ps.filter (fun q => decide (q.1 = k)) := by
        simp [List.filter_cons, hp]
      rw [hf, lookupA_insertReplace acc p.1 k p.2,
        if_neg (fun he => hp he.symm)]

theorem insertReplace_keys_nodup {β : Type} (ps : List (String × β)) (a : String)
    (b : β) (hnd : (ps.map Prod.fst).Nodup) :
    ((insertReplace ps a b).map Prod.fst).Nodup := by
  rw [insertReplace]
  by_cases hany : ps.any (fun p => decide (p.1 = a)) = true
  · rw [if_pos hany]
    have hkeys : (ps.map (fun p => if p.1 = a then (a, b) else p)).map Prod.fst
        = ps.map Prod.fst := by
      rw [List.map_map]
      apply List.map_congr_left
      intro p _
      by_cases hp : p.1 = a
      · simp [Function.comp, hp]
      · simp [Function.comp, hp]
    rw [hkeys]
    exact hnd
  · rw [if_neg hany]
    rw [List.map_append]
    apply List.Nodup.append hnd (by simp)
    intro x hx hx2
    have hxa : x = a := by simpa using hx2
    subst hxa
    obtain ⟨q, hq, hq1⟩ := List.mem_map.mp hx
    have := List.any_eq_false.mp (Bool.not_eq_true _ ▸ hany) q hq
    simp [hq1] at this

theorem countiesDict_keys_nodup_aux {β : Type} :
    ∀ (entries acc : List (String × β)),
    (acc.map Prod.fst).Nodup →
    ((entries.foldl (fun a p => insertReplace a p.1 p.2) acc).map Prod.fst).Nodup
  | [], _, h => h
  | p :: ps, acc, h => by
    rw [List.foldl_cons]
    exact countiesDict_keys_nodup_aux ps _ (insertReplace_keys_nodup acc p.1 p.2 h)

/-- C10: when distinct county groups resolve to the same output key, the
later group (in the sorted grouping iteration) silently overwrites the
earlier one — the counties dict maps every key to the data of the LAST
group whose output key equals it, and its keys are pairwise distinct, so
exactly one entry remains per key and the earlier group's enrollment is
absent from the counties dimension. -/
theorem counties_overwrite (t : Table) (k : String) :
    lookupA (aggregate_enrollment t).counties k
      = lastVal? ((t.groupKeys.filter (fun g => decide (t.groupFips g = k))).map
          (fun g => t.countyDataOf g))
    ∧ ((aggregate_enrollment t).counties.map Prod.fst).Nodup := by
  constructor
  · show lookupA t.countiesDict k = _
    rw [countiesDict_as_pairs, lookupA_foldl_insertReplace, List.filter_map]
    have hcomp : ((fun p : String × CountyData => decide (p.1 = k)) ∘
        (fun g => (t.groupFips g, t.countyDataOf g)))
        = fun g => decide (t.groupFips g = k) := rfl
    rw [hcomp, List.map_map]
    have hcomp2 : ((fun p : String × CountyData => p.2) ∘
        (fun g => (t.groupFips g, t.countyDataOf g)))
        = fun g => t.countyDataOf g := rfl
    rw [hcomp2]
    have hnil : lookupA ([] : List (String × CountyData)) k = none := rfl
    rw [hnil, Option.or_none]
  · show (t.countiesDict.map Prod.fst).Nodup
    rw [countiesDict_as_pairs]
    exact countiesDict_keys_nodup_aux _ [] List.Pairwise.nil

end MADash
